import Mathlib

/-!
Shallow embedding of the evolution-chain flattening and combined
type-effectiveness logic of the pokedex-companion repository, together
with proofs of the specified properties.

The data model follows the TypeScript interfaces (`NamedAPIResource`,
`EvolutionDetail`, `ChainLink`, `TypeDamageRelations`, `PokemonTypeData`);
the functions follow `capitalize`, `formatEvolutionDetails`,
`flattenEvolutionChain` and `calculateTypeEffectiveness`.

Modelling conventions:
- JavaScript numbers are embedded as `Int` (IDs, levels) and `ℚ`
  (effectiveness multipliers; every multiplier arising here is a small
  dyadic rational, on which float64 arithmetic is exact).
- `null | T` fields are `Option T`; JS truthiness of a numeric field is
  "present and nonzero", of a string field "nonempty".
- A `Record<string, number>` object literal is an insertion-ordered
  association list with at most one entry per key: assignment updates
  the first matching entry in place, or appends a fresh entry.
- `parseInt` is modelled on base-10 numerals: skip leading whitespace,
  read an optional sign, then the longest run of decimal digits; the
  result is `none` when no digits are found, standing for NaN (every
  ordered comparison against NaN is false).
-/

namespace Pokedex

/-- `NamedAPIResource` from the API type declarations: a name plus a URL. -/
structure NamedAPIResource where
  name : String
  url : String
  deriving DecidableEq, Repr

/-- `EvolutionDetail`: the conditions attached to one evolution step. -/
structure EvolutionDetail where
  trigger : NamedAPIResource
  item : Option NamedAPIResource
  min_level : Option Int
  min_happiness : Option Int
  time_of_day : String
  held_item : Option NamedAPIResource
  known_move : Option NamedAPIResource
  location : Option NamedAPIResource
  deriving DecidableEq, Repr

/-- `ChainLink`: one node of the recursive evolution-chain tree. -/
inductive ChainLink where
  | mk (species : NamedAPIResource) (evolution_details : List EvolutionDetail)
       (evolves_to : List ChainLink) (is_baby : Bool)

/-- Projection of the `species` field. -/
def ChainLink.species : ChainLink → NamedAPIResource
  | .mk sp _ _ _ => sp

/-- Projection of the `evolution_details` field. -/
def ChainLink.evolution_details : ChainLink → List EvolutionDetail
  | .mk _ det _ _ => det

/-- Projection of the `evolves_to` field. -/
def ChainLink.evolves_to : ChainLink → List ChainLink
  | .mk _ _ ch _ => ch

/-- `TypeDamageRelations`: the six damage-relation sets of one type. -/
structure TypeDamageRelations where
  double_damage_from : List NamedAPIResource
  double_damage_to : List NamedAPIResource
  half_damage_from : List NamedAPIResource
  half_damage_to : List NamedAPIResource
  no_damage_from : List NamedAPIResource
  no_damage_to : List NamedAPIResource
  deriving DecidableEq, Repr

/-- `PokemonTypeData`: the part of the `/type/{name}` payload the
effectiveness computation reads (the `pokemon` listing is never touched
by it and is omitted). -/
structure PokemonTypeData where
  id : Int
  name : String
  damage_relations : TypeDamageRelations
  deriving DecidableEq, Repr

/-- `LETS_GO_MAX_POKEMON = 151`, the regional species cap. -/
def LETS_GO_MAX_POKEMON : Int := 151

/-- `capitalize`: empty string for a falsy input (the empty string is
the only falsy string here), otherwise the first character uppercased
and the rest unchanged. All names involved are ASCII, where
`Char.toUpper` agrees with `toUpperCase()`. -/
def capitalize (str : String) : String :=
  match str.toList with
  | [] => ""
  | c :: rest => String.mk (Char.toUpper c :: rest)

/-- Value of a run of decimal digits. -/
def decDigitsVal (cs : List Char) : Nat :=
  cs.foldl (fun a c => 10 * a + (c.toNat - 48)) 0

/-- Base-10 `parseInt` on a path segment: skip leading whitespace, read
an optional sign, then the longest run of decimal digits; `none` models
the NaN result when no digits are found. -/
def parseIntJS (s : List Char) : Option Int :=
  let cs := s.dropWhile Char.isWhitespace
  let signAndRest : Int × List Char :=
    match cs with
    | '-' :: t => (-1, t)
    | '+' :: t => (1, t)
    | t => (1, t)
  let ds := signAndRest.2.takeWhile Char.isDigit
  if ds.isEmpty then none else some (signAndRest.1 * (decDigitsVal ds : Int))

/-- `split("/")` on the character list: maximal runs between slashes,
keeping empty runs, exactly as the JS string split does. -/
def splitOnSlashAux : List Char → List Char → List (List Char)
  | [], cur => [cur.reverse]
  | c :: rest, cur =>
    if c = '/' then cur.reverse :: splitOnSlashAux rest []
    else splitOnSlashAux rest (c :: cur)

/-- `url.split("/")`. -/
def splitOnSlash (url : String) : List (List Char) :=
  splitOnSlashAux url.toList []

/-- `url.split("/").filter(Boolean).pop() ?? "0"`: the trailing non-empty
path segment, defaulting to `"0"` when there is none. -/
def trailingSegmentOrZero (url : String) : List Char :=
  ((((splitOnSlash url).filter (fun s => s ≠ [])).getLast?).getD ['0'])

/-- `parseInt(link.species.url.split("/").filter(Boolean).pop() ?? "0")`:
the numeric ID derived from a species URL (`none` = NaN). -/
def derivedNumericId (url : String) : Option Int :=
  parseIntJS (trailingSegmentOrZero url)

/-- The guard `evoId <= LETS_GO_MAX_POKEMON`; false when the parse
produced NaN, since every comparison against NaN is false. -/
def idWithinCap (url : String) : Bool :=
  match derivedNumericId url with
  | some n => decide (n ≤ LETS_GO_MAX_POKEMON)
  | none => false

/-- `FlatEvolution`: one flattened evolution stage. -/
structure FlatEvolution where
  name : String
  url : String
  minLevel : Option Int
  details : List EvolutionDetail
  deriving DecidableEq, Repr

/-- The `FlatEvolution` record pushed for an emitted node: its species
name and URL, `evolution_details[0]?.min_level ?? null`, and the node's
own `evolution_details`. -/
def stageOf (sp : NamedAPIResource) (det : List EvolutionDetail) : FlatEvolution :=
  { name := sp.name
    url := sp.url
    minLevel := det.head?.bind (fun d => d.min_level)
    details := det }

mutual
/-- The recursive `traverse` helper inside `flattenEvolutionChain`: the
accumulator plays the mutable `result` array; a node is appended when its
derived ID passes the cap, and the children are traversed regardless. -/
def traverse (link : ChainLink) (result : List FlatEvolution) : List FlatEvolution :=
  match link with
  | .mk sp det ch _ =>
    traverseList ch
      (if idWithinCap sp.url then result ++ [stageOf sp det] else result)

/-- `link.evolves_to.forEach(traverse)` with the shared `result` array. -/
def traverseList (links : List ChainLink) (result : List FlatEvolution) : List FlatEvolution :=
  match links with
  | [] => result
  | c :: cs => traverseList cs (traverse c result)
end

/-- `flattenEvolutionChain`: run `traverse` from the root on an empty
`result` array. -/
def flattenEvolutionChain (chain : ChainLink) : List FlatEvolution :=
  traverse chain []

mutual
/-- Modelled from the spec: the manual pre-order listing of the emitted
stages — the root's stage (if the root passes the ID filter) first, then
each child's full listing before the next sibling's. -/
def preorderStages (link : ChainLink) : List FlatEvolution :=
  match link with
  | .mk sp det ch _ =>
    (if idWithinCap sp.url then [stageOf sp det] else []) ++ preorderStagesList ch

/-- Pre-order listings of a forest of children, in child order. -/
def preorderStagesList (links : List ChainLink) : List FlatEvolution :=
  match links with
  | [] => []
  | c :: cs => preorderStages c ++ preorderStagesList cs
end

mutual
/-- All nodes of a chain tree, in pre-order. -/
def allNodes (link : ChainLink) : List ChainLink :=
  match link with
  | .mk _ _ ch _ => link :: allNodesList ch

/-- All nodes of a forest, in pre-order. -/
def allNodesList (links : List ChainLink) : List ChainLink :=
  match links with
  | [] => []
  | c :: cs => allNodes c ++ allNodesList cs
end

/-- Structural induction principle for the nested chain tree. -/
def chainInd (P : ChainLink → Prop)
    (step : ∀ sp det ch baby, (∀ c ∈ ch, P c) → P (.mk sp det ch baby)) :
    ∀ c, P c
  | .mk sp det ch baby => step sp det ch baby (fun c _ => chainInd P step c)

/-- The `humanize` closure of `formatEvolutionDetails`: replace every
hyphen with a space (the regex pattern is the single character `-` with
the global flag, so this is a character-wise map), then `capitalize`. -/
def humanize (name : String) : String :=
  capitalize (String.mk (name.toList.map (fun c => if c = '-' then ' ' else c)))

/-- JS truthiness of a `number | null` field: present and nonzero. -/
def truthyNum : Option Int → Bool
  | some n => n != 0
  | none => false

/-- `formatEvolutionDetails`: the short human-readable label of the first
evolution detail, empty for an empty list. -/
def formatEvolutionDetails (details : List EvolutionDetail) : String :=
  match details with
  | [] => ""
  | d :: _ =>
    match d.trigger.name with
    | "level-up" =>
      if truthyNum d.min_level then "Lv. " ++ toString (d.min_level.getD 0)
      else if truthyNum d.min_happiness then "Happiness ≥ " ++ toString (d.min_happiness.getD 0)
      else if d.time_of_day ≠ "" then capitalize d.time_of_day
      else
        match d.location with
        | some loc => capitalize loc.name
        | none => humanize d.trigger.name
    | "use-item" =>
      match d.item with
      | some it => humanize it.name
      | none => humanize d.trigger.name
    | "trade" =>
      match d.held_item with
      | some held => "Trade holding " ++ humanize held.name
      | none => "Trade"
    | _ => humanize d.trigger.name

/-- The `effectiveness` object: an insertion-ordered association list
from attacking type name to multiplier. -/
abbrev EffMap := List (String × ℚ)

/-- Read `effectiveness[name] ?? 1`. -/
def lookupOr1 : EffMap → String → ℚ
  | [], _ => 1
  | p :: rest, k => if p.1 = k then p.2 else lookupOr1 rest k

/-- Object assignment `effectiveness[name] = v`: update the (unique)
existing entry in place, or append a fresh one. -/
def setKey : EffMap → String → ℚ → EffMap
  | [], k, v => [(k, v)]
  | p :: rest, k, v => if p.1 = k then (k, v) :: rest else p :: setKey rest k v

/-- `damage_relations.double_damage_from.forEach(...)`: double each
listed type's multiplier. -/
def applyDouble (m : EffMap) (rs : List NamedAPIResource) : EffMap :=
  rs.foldl (fun m r => setKey m r.name (lookupOr1 m r.name * 2)) m

/-- `damage_relations.half_damage_from.forEach(...)`: halve each listed
type's multiplier. -/
def applyHalf (m : EffMap) (rs : List NamedAPIResource) : EffMap :=
  rs.foldl (fun m r => setKey m r.name (lookupOr1 m r.name * 0.5)) m

/-- `damage_relations.no_damage_from.forEach(...)`: set each listed
type's multiplier to 0. -/
def applyNoDamage (m : EffMap) (rs : List NamedAPIResource) : EffMap :=
  rs.foldl (fun m r => setKey m r.name 0) m

/-- The body of the `for (const typeData of typeDataList)` loop: doubles,
then halves, then immunities of one table. -/
def applyTable (m : EffMap) (td : PokemonTypeData) : EffMap :=
  applyNoDamage
    (applyHalf
      (applyDouble m td.damage_relations.double_damage_from)
      td.damage_relations.half_damage_from)
    td.damage_relations.no_damage_from

/-- `calculateTypeEffectiveness`: fold the tables, in order, over an
initially empty map. -/
def calculateTypeEffectiveness (typeDataList : List PokemonTypeData) : EffMap :=
  typeDataList.foldl applyTable []

/-- The emission decision of `traverse` for a single node, as an
optional stage. -/
def emitStage (link : ChainLink) : Option FlatEvolution :=
  if idWithinCap link.species.url then
    some (stageOf link.species link.evolution_details)
  else none

/-- The multiplicative contribution of one damage-relation table to one
attacking type: 0 on an immunity, otherwise 2 per double-damage entry
and 0.5 per half-damage entry. -/
def tableFactor (dr : TypeDamageRelations) (t : String) : ℚ :=
  if t ∈ dr.no_damage_from.map NamedAPIResource.name then 0
  else
    2 ^ (dr.double_damage_from.map NamedAPIResource.name).count t *
      (0.5 : ℚ) ^ (dr.half_damage_from.map NamedAPIResource.name).count t

/-- All attacking-type names a table's three `*_damage_from` sets
mention. -/
def fromNames (dr : TypeDamageRelations) : List String :=
  (dr.double_damage_from ++ dr.half_damage_from ++ dr.no_damage_from).map
    NamedAPIResource.name

/-- Each attacking type occurs at most once across a single table's
`double_damage_from`, `half_damage_from` and `no_damage_from` sets. -/
def fromNamesNodup (dr : TypeDamageRelations) : Prop :=
  (fromNames dr).Nodup

instance (dr : TypeDamageRelations) : Decidable (fromNamesNodup dr) :=
  inferInstanceAs (Decidable ((fromNames dr).Nodup))

/-- Modelled from the spec: the multiplier that "mirrors that type's raw
damage relations" for a single defending type — 0 on an immunity, 2 on a
double-damage entry, 0.5 on a half-damage entry, 1 otherwise. -/
def rawRelationMultiplier (dr : TypeDamageRelations) (t : String) : ℚ :=
  if t ∈ dr.no_damage_from.map NamedAPIResource.name then 0
  else if t ∈ dr.double_damage_from.map NamedAPIResource.name then 2
  else if t ∈ dr.half_damage_from.map NamedAPIResource.name then 0.5
  else 1

/-- An evolution detail: level-up at minimum level 16. -/
def levelUp16Detail : EvolutionDetail :=
  { trigger := ⟨"level-up", ""⟩, item := none, min_level := some 16,
    min_happiness := none, time_of_day := "", held_item := none,
    known_move := none, location := none }

/-- An evolution detail: use a Thunder Stone. -/
def thunderStoneDetail : EvolutionDetail :=
  { trigger := ⟨"use-item", ""⟩, item := some ⟨"thunder-stone", ""⟩,
    min_level := none, min_happiness := none, time_of_day := "",
    held_item := none, known_move := none, location := none }

/-- An evolution detail: plain trade, no held item. -/
def tradeDetail : EvolutionDetail :=
  { trigger := ⟨"trade", ""⟩, item := none, min_level := none,
    min_happiness := none, time_of_day := "", held_item := none,
    known_move := none, location := none }

/-- An evolution detail: trade holding a Metal Coat. -/
def tradeMetalCoatDetail : EvolutionDetail :=
  { tradeDetail with held_item := some ⟨"metal-coat", ""⟩ }

/-- The water type's damage relations. -/
def waterRelations : TypeDamageRelations :=
  { double_damage_from := [⟨"grass", ""⟩, ⟨"electric", ""⟩]
    double_damage_to := [⟨"fire", ""⟩, ⟨"ground", ""⟩, ⟨"rock", ""⟩]
    half_damage_from := [⟨"fire", ""⟩, ⟨"water", ""⟩, ⟨"ice", ""⟩, ⟨"steel", ""⟩]
    half_damage_to := [⟨"water", ""⟩, ⟨"grass", ""⟩, ⟨"dragon", ""⟩]
    no_damage_from := []
    no_damage_to := [] }

/-- The ground type's damage relations. -/
def groundRelations : TypeDamageRelations :=
  { double_damage_from := [⟨"water", ""⟩, ⟨"grass", ""⟩, ⟨"ice", ""⟩]
    double_damage_to := [⟨"fire", ""⟩, ⟨"electric", ""⟩, ⟨"poison", ""⟩, ⟨"rock", ""⟩, ⟨"steel", ""⟩]
    half_damage_from := [⟨"poison", ""⟩, ⟨"rock", ""⟩]
    half_damage_to := [⟨"grass", ""⟩, ⟨"bug", ""⟩]
    no_damage_from := [⟨"electric", ""⟩]
    no_damage_to := [⟨"flying", ""⟩] }

/-- `/type/water` payload. -/
def waterTypeData : PokemonTypeData :=
  { id := 11, name := "water", damage_relations := waterRelations }

/-- `/type/ground` payload. -/
def groundTypeData : PokemonTypeData :=
  { id := 5, name := "ground", damage_relations := groundRelations }

/-- A species URL whose trailing non-empty segment is not a numeral. -/
def unparseableUrl : String :=
  "https://pokeapi.co/api/v2/pokemon-species/abc/"

/-- A one-node chain whose species URL has an unparseable trailing
segment. -/
def unparseableChain : ChainLink :=
  .mk ⟨"oddity", unparseableUrl⟩ [] [] false

/-- A two-stage chain: abra (ID 63) evolving into kadabra (ID 64) at
level 16. -/
def abraChain : ChainLink :=
  .mk ⟨"abra", "https://pokeapi.co/api/v2/pokemon-species/63/"⟩ []
    [.mk ⟨"kadabra", "https://pokeapi.co/api/v2/pokemon-species/64/"⟩
      [levelUp16Detail] [] false] false

/-! ### Evolution-chain flattening: helper lemmas -/

theorem traverse_mk (sp : NamedAPIResource) (det : List EvolutionDetail)
    (ch : List ChainLink) (baby : Bool) (acc : List FlatEvolution) :
    traverse (.mk sp det ch baby) acc =
      traverseList ch (if idWithinCap sp.url then acc ++ [stageOf sp det] else acc) := rfl

theorem traverseList_nil (acc : List FlatEvolution) : traverseList [] acc = acc := rfl

theorem traverseList_cons (c : ChainLink) (cs : List ChainLink) (acc : List FlatEvolution) :
    traverseList (c :: cs) acc = traverseList cs (traverse c acc) := rfl

theorem preorderStages_mk (sp : NamedAPIResource) (det : List EvolutionDetail)
    (ch : List ChainLink) (baby : Bool) :
    preorderStages (.mk sp det ch baby) =
      (if idWithinCap sp.url then [stageOf sp det] else []) ++ preorderStagesList ch := rfl

theorem preorderStagesList_nil : preorderStagesList [] = [] := rfl

theorem preorderStagesList_cons (c : ChainLink) (cs : List ChainLink) :
    preorderStagesList (c :: cs) = preorderStages c ++ preorderStagesList cs := rfl

theorem allNodes_mk (sp : NamedAPIResource) (det : List EvolutionDetail)
    (ch : List ChainLink) (baby : Bool) :
    allNodes (.mk sp det ch baby) = .mk sp det ch baby :: allNodesList ch := rfl

theorem allNodesList_nil : allNodesList [] = [] := rfl

theorem allNodesList_cons (c : ChainLink) (cs : List ChainLink) :
    allNodesList (c :: cs) = allNodes c ++ allNodesList cs := rfl

theorem traverseList_eq_preorder (ch : List ChainLink)
    (ih : ∀ c ∈ ch, ∀ acc, traverse c acc = acc ++ preorderStages c) :
    ∀ acc, traverseList ch acc = acc ++ preorderStagesList ch := by
  induction ch with
  | nil => intro acc; rw [traverseList_nil, preorderStagesList_nil, List.append_nil]
  | cons c cs ihl =>
    intro acc
    rw [traverseList_cons, ih c (by simp),
      ihl (fun c' hc' => ih c' (by simp [hc'])), preorderStagesList_cons,
      List.append_assoc]

theorem traverse_eq_preorder (c : ChainLink) :
    ∀ acc, traverse c acc = acc ++ preorderStages c := by
  induction c using chainInd with
  | step sp det ch baby ih =>
    intro acc
    rw [traverse_mk, traverseList_eq_preorder ch ih, preorderStages_mk]
    by_cases h : idWithinCap sp.url <;> simp [h]

theorem flatten_eq_preorder (c : ChainLink) :
    flattenEvolutionChain c = preorderStages c := by
  rw [flattenEvolutionChain, traverse_eq_preorder c []]
  rfl

theorem preorderStagesList_eq_filterMap (ch : List ChainLink)
    (ih : ∀ c ∈ ch, preorderStages c = (allNodes c).filterMap emitStage) :
    preorderStagesList ch = (allNodesList ch).filterMap emitStage := by
  induction ch with
  | nil => rw [preorderStagesList_nil, allNodesList_nil, List.filterMap_nil]
  | cons c cs ihl =>
    rw [preorderStagesList_cons, allNodesList_cons, List.filterMap_append,
      ih c (by simp), ihl (fun c' hc' => ih c' (by simp [hc']))]

theorem preorderStages_eq_filterMap (c : ChainLink) :
    preorderStages c = (allNodes c).filterMap emitStage := by
  induction c using chainInd with
  | step sp det ch baby ih =>
    rw [preorderStages_mk, allNodes_mk, List.filterMap_cons,
      preorderStagesList_eq_filterMap ch ih]
    by_cases h : idWithinCap sp.url <;>
      simp [emitStage, ChainLink.species, ChainLink.evolution_details, h]

theorem flatten_eq_filterMap (c : ChainLink) :
    flattenEvolutionChain c = (allNodes c).filterMap emitStage := by
  rw [flatten_eq_preorder, preorderStages_eq_filterMap]

/-! ### The flattening claims -/

/-- C1: for every evolution-chain tree, `flattenEvolutionChain` returns
exactly the manual pre-order listing of the emitted stages: the root's
stage (if emitted) first, then each child's full flattened subtree
before the next sibling's. -/
theorem flattenEvolutionChain_is_preorder (chain : ChainLink) :
    flattenEvolutionChain chain = preorderStages chain :=
  flatten_eq_preorder chain

/-- C2: no emitted stage's derived numeric ID exceeds the
`LETS_GO_MAX_POKEMON` bound, and a node that is itself filtered out does
not block traversal: every node of the tree that passes the ID check
appears in the output. -/
theorem flattenEvolutionChain_respects_cap (chain : ChainLink) :
    (∀ s ∈ flattenEvolutionChain chain, ∀ n : Int,
        derivedNumericId s.url = some n → n ≤ LETS_GO_MAX_POKEMON)
    ∧ (∀ link ∈ allNodes chain, idWithinCap link.species.url = true →
        stageOf link.species link.evolution_details ∈ flattenEvolutionChain chain) := by
  constructor
  · intro s hs n hn
    rw [flatten_eq_filterMap] at hs
    obtain ⟨node, hmem, hemit⟩ := List.mem_filterMap.mp hs
    by_cases h : idWithinCap node.species.url
    · rw [emitStage, if_pos h] at hemit
      obtain rfl := Option.some.inj hemit
      have hn' : derivedNumericId node.species.url = some n := hn
      simp only [idWithinCap, hn'] at h
      exact of_decide_eq_true h
    · rw [emitStage, if_neg h] at hemit
      exact absurd hemit (by simp)
  · intro link hmem hcap
    rw [flatten_eq_filterMap]
    exact List.mem_filterMap.mpr ⟨link, hmem, by rw [emitStage, if_pos hcap]⟩

/-- Instantiation of the C2 theorem on the concrete abra chain. -/
theorem flattenEvolutionChain_respects_cap_witness :
    (64 : Int) ≤ LETS_GO_MAX_POKEMON
    ∧ stageOf ⟨"abra", "https://pokeapi.co/api/v2/pokemon-species/63/"⟩ []
        ∈ flattenEvolutionChain abraChain :=
  ⟨(flattenEvolutionChain_respects_cap abraChain).1
      (stageOf ⟨"kadabra", "https://pokeapi.co/api/v2/pokemon-species/64/"⟩
        [levelUp16Detail])
      (by decide) 64 (by decide),
   (flattenEvolutionChain_respects_cap abraChain).2 abraChain
      (by simp [abraChain, allNodes_mk]) (by decide)⟩

/-- C3: every emitted stage carries exactly its own node's
`evolution_details` (never an ancestor's), and when the root's details
are empty and the root is emitted, the first output stage has empty
details. -/
theorem flattenEvolutionChain_own_details (chain : ChainLink) :
    (∀ s ∈ flattenEvolutionChain chain, ∃ link ∈ allNodes chain,
        s = stageOf link.species link.evolution_details ∧
        s.details = link.evolution_details)
    ∧ (chain.evolution_details = [] → idWithinCap chain.species.url = true →
        ∃ s, (flattenEvolutionChain chain).head? = some s ∧ s.details = []) := by
  constructor
  · intro s hs
    rw [flatten_eq_filterMap] at hs
    obtain ⟨node, hmem, hemit⟩ := List.mem_filterMap.mp hs
    by_cases h : idWithinCap node.species.url
    · rw [emitStage, if_pos h] at hemit
      obtain rfl := Option.some.inj hemit
      exact ⟨node, hmem, rfl, rfl⟩
    · rw [emitStage, if_neg h] at hemit
      exact absurd hemit (by simp)
  · obtain ⟨sp, det, ch, baby⟩ := chain
    intro hdet hcap
    have hdet' : det = [] := hdet
    subst hdet'
    have hcap' : idWithinCap sp.url = true := hcap
    refine ⟨stageOf sp [], ?_, rfl⟩
    rw [flatten_eq_preorder, preorderStages_mk, if_pos hcap']
    rfl

/-- Instantiation of the C3 theorem on the concrete abra chain. -/
theorem flattenEvolutionChain_own_details_witness :
    ∃ s, (flattenEvolutionChain abraChain).head? = some s ∧ s.details = [] :=
  (flattenEvolutionChain_own_details abraChain).2 rfl (by decide)

/-- C4 fails as stated: a trailing segment that is present but not a
numeral parses to NaN (not 0), so the node is dropped, not emitted. -/
theorem flatten_unparseable_counterexample :
    trailingSegmentOrZero unparseableUrl = ['a', 'b', 'c']
    ∧ derivedNumericId unparseableUrl ≠ some 0
    ∧ flattenEvolutionChain unparseableChain = [] := by decide

/-- C4 (amended): a *missing* trailing segment defaults to `"0"`, parses
to 0 and the node is always emitted; a trailing segment that is present
but unparseable yields NaN, fails the bound check, and the node is
dropped — without failure and without blocking traversal into its
descendants. -/
theorem flatten_malformed_segment (sp : NamedAPIResource) (det : List EvolutionDetail)
    (ch : List ChainLink) (baby : Bool) :
    (((splitOnSlash sp.url).filter (fun s => s ≠ [])).getLast? = none →
      derivedNumericId sp.url = some 0 ∧
      flattenEvolutionChain (.mk sp det ch baby) = stageOf sp det :: preorderStagesList ch)
    ∧ (parseIntJS (trailingSegmentOrZero sp.url) = none →
      flattenEvolutionChain (.mk sp det ch baby) = preorderStagesList ch) := by
  constructor
  · intro hmiss
    have hid : derivedNumericId sp.url = some 0 := by
      rw [derivedNumericId, trailingSegmentOrZero, hmiss]
      rfl
    refine ⟨hid, ?_⟩
    have hcap : idWithinCap sp.url = true := by
      rw [idWithinCap, hid]
      rfl
    rw [flatten_eq_preorder, preorderStages_mk, if_pos hcap]
    rfl
  · intro hnan
    have hcap : idWithinCap sp.url = false := by
      rw [idWithinCap, derivedNumericId, hnan]
    rw [flatten_eq_preorder, preorderStages_mk, if_neg (by simp [hcap])]
    rfl

/-- Instantiation of the amended C4 theorem: a URL of bare slashes is
emitted with ID 0; the unparseable chain is dropped but still recurses
into its (here empty) children. -/
theorem flatten_malformed_segment_witness :
    derivedNumericId "///" = some 0
    ∧ flattenEvolutionChain (.mk ⟨"blank", "///"⟩ [] [] false) =
        stageOf ⟨"blank", "///"⟩ [] :: preorderStagesList []
    ∧ flattenEvolutionChain unparseableChain = preorderStagesList [] :=
  ⟨((flatten_malformed_segment ⟨"blank", "///"⟩ [] [] false).1 (by decide)).1,
   ((flatten_malformed_segment ⟨"blank", "///"⟩ [] [] false).1 (by decide)).2,
   (flatten_malformed_segment ⟨"oddity", unparseableUrl⟩ [] [] false).2 (by decide)⟩

/-! ### Type effectiveness: helper lemmas -/

theorem lookupOr1_setKey (m : EffMap) (k k' : String) (v : ℚ) :
    lookupOr1 (setKey m k v) k' = if k = k' then v else lookupOr1 m k' := by
  induction m with
  | nil => simp [setKey, lookupOr1]
  | cons p rest ih =>
    by_cases hp : p.1 = k
    · rw [setKey, if_pos hp]
      by_cases hk : k = k'
      · rw [lookupOr1, if_pos hk, if_pos hk]
      · rw [lookupOr1, if_neg hk, if_neg hk, lookupOr1, if_neg (by rw [hp]; exact hk)]
    · rw [setKey, if_neg hp]
      by_cases hq : p.1 = k'
      · rw [lookupOr1, if_pos hq, if_neg (by rw [← hq]; exact fun hkk => hp hkk.symm),
          lookupOr1, if_pos hq]
      · rw [lookupOr1, if_neg hq, ih]
        by_cases hk : k = k'
        · rw [if_pos hk, if_pos hk]
        · rw [if_neg hk, if_neg hk, lookupOr1, if_neg hq]

theorem lookupOr1_applyDouble (rs : List NamedAPIResource) :
    ∀ (m : EffMap) (t : String),
      lookupOr1 (applyDouble m rs) t =
        lookupOr1 m t * 2 ^ (rs.map NamedAPIResource.name).count t := by
  induction rs with
  | nil => intro m t; simp [applyDouble]
  | cons r rs ih =>
    intro m t
    have hc : applyDouble m (r :: rs) =
        applyDouble (setKey m r.name (lookupOr1 m r.name * 2)) rs := rfl
    rw [hc, ih, lookupOr1_setKey]
    by_cases h : r.name = t
    · rw [if_pos h, List.map_cons, h, List.count_cons_self, pow_succ]
      ring
    · rw [if_neg h, List.map_cons, List.count_cons_of_ne (fun hh => h hh.symm)]

theorem lookupOr1_applyHalf (rs : List NamedAPIResource) :
    ∀ (m : EffMap) (t : String),
      lookupOr1 (applyHalf m rs) t =
        lookupOr1 m t * (0.5 : ℚ) ^ (rs.map NamedAPIResource.name).count t := by
  induction rs with
  | nil => intro m t; simp [applyHalf]
  | cons r rs ih =>
    intro m t
    have hc : applyHalf m (r :: rs) =
        applyHalf (setKey m r.name (lookupOr1 m r.name * 0.5)) rs := rfl
    rw [hc, ih, lookupOr1_setKey]
    by_cases h : r.name = t
    · rw [if_pos h, List.map_cons, h, List.count_cons_self, pow_succ]
      ring
    · rw [if_neg h, List.map_cons, List.count_cons_of_ne (fun hh => h hh.symm)]

theorem lookupOr1_applyNoDamage (rs : List NamedAPIResource) :
    ∀ (m : EffMap) (t : String),
      lookupOr1 (applyNoDamage m rs) t =
        if t ∈ rs.map NamedAPIResource.name then 0 else lookupOr1 m t := by
  induction rs with
  | nil => intro m t; simp [applyNoDamage]
  | cons r rs ih =>
    intro m t
    have hc : applyNoDamage m (r :: rs) = applyNoDamage (setKey m r.name 0) rs := rfl
    rw [hc, ih]
    by_cases hmem : t ∈ rs.map NamedAPIResource.name
    · rw [if_pos hmem, if_pos (by simp [hmem])]
    · rw [if_neg hmem, lookupOr1_setKey]
      by_cases h : r.name = t
      · rw [if_pos h, if_pos (by simp [h])]
      · rw [if_neg h, if_neg (by simp [hmem]; exact fun hh => h hh.symm)]

theorem lookupOr1_applyTable (m : EffMap) (td : PokemonTypeData) (t : String) :
    lookupOr1 (applyTable m td) t = lookupOr1 m t * tableFactor td.damage_relations t := by
  rw [applyTable, tableFactor, lookupOr1_applyNoDamage, lookupOr1_applyHalf,
    lookupOr1_applyDouble]
  by_cases h : t ∈ td.damage_relations.no_damage_from.map NamedAPIResource.name
  · rw [if_pos h, if_pos h, mul_zero]
  · rw [if_neg h, if_neg h, mul_assoc]

theorem lookupOr1_foldl_tables (ts : List PokemonTypeData) :
    ∀ (m : EffMap) (t : String),
      lookupOr1 (ts.foldl applyTable m) t =
        lookupOr1 m t * ((ts.map (fun td => tableFactor td.damage_relations t)).prod) := by
  induction ts with
  | nil => intro m t; simp
  | cons td ts ih =>
    intro m t
    rw [List.foldl_cons, ih, lookupOr1_applyTable, List.map_cons, List.prod_cons,
      mul_assoc]

theorem lookupOr1_calc (ts : List PokemonTypeData) (t : String) :
    lookupOr1 (calculateTypeEffectiveness ts) t =
      ((ts.map (fun td => tableFactor td.damage_relations t)).prod) := by
  rw [calculateTypeEffectiveness, lookupOr1_foldl_tables]
  rw [show lookupOr1 [] t = 1 from rfl, one_mul]

theorem tableFactor_eq_raw (dr : TypeDamageRelations) (t : String)
    (hnd : fromNamesNodup dr) :
    tableFactor dr t = rawRelationMultiplier dr t := by
  have hcount : (fromNames dr).count t ≤ 1 :=
    List.nodup_iff_count_le_one.mp hnd t
  have hsplit : (fromNames dr).count t =
      (dr.double_damage_from.map NamedAPIResource.name).count t +
        ((dr.half_damage_from.map NamedAPIResource.name).count t +
          (dr.no_damage_from.map NamedAPIResource.name).count t) := by
    rw [fromNames, List.map_append, List.map_append, List.count_append,
      List.count_append]
    omega
  rw [tableFactor, rawRelationMultiplier]
  by_cases hno : t ∈ dr.no_damage_from.map NamedAPIResource.name
  · rw [if_pos hno, if_pos hno]
  · rw [if_neg hno, if_neg hno]
    by_cases hd : t ∈ dr.double_damage_from.map NamedAPIResource.name
    · have h1 : 0 < (dr.double_damage_from.map NamedAPIResource.name).count t :=
        List.count_pos_iff.mpr hd
      have hd1 : (dr.double_damage_from.map NamedAPIResource.name).count t = 1 := by
        omega
      have hh0 : (dr.half_damage_from.map NamedAPIResource.name).count t = 0 := by
        omega
      rw [if_pos hd, hd1, hh0]
      norm_num
    · have hd0 : (dr.double_damage_from.map NamedAPIResource.name).count t = 0 :=
        List.count_eq_zero.mpr hd
      rw [if_neg hd]
      by_cases hh : t ∈ dr.half_damage_from.map NamedAPIResource.name
      · have h1 : 0 < (dr.half_damage_from.map NamedAPIResource.name).count t :=
          List.count_pos_iff.mpr hh
        have hh1 : (dr.half_damage_from.map NamedAPIResource.name).count t = 1 := by
          omega
        rw [if_pos hh, hd0, hh1]
        norm_num
      · have hh0 : (dr.half_damage_from.map NamedAPIResource.name).count t = 0 :=
          List.count_eq_zero.mpr hh
        rw [if_neg hh, hd0, hh0]
        norm_num

theorem rawRelationMultiplier_cases (dr : TypeDamageRelations) (t : String) :
    rawRelationMultiplier dr t = 0 ∨ rawRelationMultiplier dr t = 2 ∨
      rawRelationMultiplier dr t = 0.5 ∨ rawRelationMultiplier dr t = 1 := by
  rw [rawRelationMultiplier]
  split_ifs <;> simp

/-! ### The effectiveness claims -/

/-- C5: combining two damage-relation tables is commutative — for any
two tables and any attacking type, the multiplier (with implicit default
1 for absent keys) is the same for `[A, B]` and `[B, A]`. -/
theorem calculateTypeEffectiveness_comm (A B : PokemonTypeData) (t : String) :
    lookupOr1 (calculateTypeEffectiveness [A, B]) t =
      lookupOr1 (calculateTypeEffectiveness [B, A]) t := by
  rw [lookupOr1_calc, lookupOr1_calc]
  simp [mul_comm]

/-- C6: once any table's `no_damage_from` names a type, the final
multiplier of that type is 0, whatever double- or half-damage entries
other tables contribute before or after. -/
theorem calculateTypeEffectiveness_zero_dominant (ts : List PokemonTypeData)
    (td : PokemonTypeData) (t : String) (h1 : td ∈ ts)
    (h2 : t ∈ td.damage_relations.no_damage_from.map NamedAPIResource.name) :
    lookupOr1 (calculateTypeEffectiveness ts) t = 0 := by
  rw [lookupOr1_calc]
  apply List.prod_eq_zero
  refine List.mem_map.mpr ⟨td, h1, ?_⟩
  rw [tableFactor, if_pos h2]

/-- Instantiation of the C6 theorem: ground's immunity zeroes electric
even though water's table doubled it first. -/
theorem calculateTypeEffectiveness_zero_dominant_witness :
    lookupOr1 (calculateTypeEffectiveness [waterTypeData, groundTypeData]) "electric" = 0 :=
  calculateTypeEffectiveness_zero_dominant [waterTypeData, groundTypeData]
    groundTypeData "electric" (by decide) (by decide)

/-- C7: with at most two tables, each naming an attacking type at most
once across its three `*_damage_from` sets, every multiplier lies in
{0, 0.25, 0.5, 1, 2, 4}; with exactly one table the multiplier mirrors
that table's raw damage relations and lies in {0, 0.5, 1, 2}. -/
theorem calculateTypeEffectiveness_range (ts : List PokemonTypeData)
    (hlen : ts.length ≤ 2)
    (hnd : ∀ td ∈ ts, fromNamesNodup td.damage_relations) :
    (∀ t, lookupOr1 (calculateTypeEffectiveness ts) t ∈
        ({0, 0.25, 0.5, 1, 2, 4} : Set ℚ))
    ∧ ∀ A, ts = [A] → ∀ t,
        lookupOr1 (calculateTypeEffectiveness ts) t =
          rawRelationMultiplier A.damage_relations t
        ∧ lookupOr1 (calculateTypeEffectiveness ts) t ∈ ({0, 0.5, 1, 2} : Set ℚ) := by
  match ts with
  | [] =>
    refine ⟨fun t => ?_, fun A hA => by cases hA⟩
    rw [lookupOr1_calc]
    simp
  | [A] =>
    have hA := hnd A (by simp)
    have hval : ∀ t, lookupOr1 (calculateTypeEffectiveness [A]) t =
        rawRelationMultiplier A.damage_relations t := by
      intro t
      rw [lookupOr1_calc, List.map_cons, List.map_nil, List.prod_cons,
        List.prod_nil, mul_one, tableFactor_eq_raw _ _ hA]
    refine ⟨fun t => ?_, fun B hB t => ?_⟩
    · rw [hval t]
      rcases rawRelationMultiplier_cases A.damage_relations t with h | h | h | h <;>
        rw [h] <;> norm_num
    · obtain rfl : A = B := by injection hB
      refine ⟨hval t, ?_⟩
      rw [hval t]
      rcases rawRelationMultiplier_cases A.damage_relations t with h | h | h | h <;>
        rw [h] <;> norm_num
  | [A, B] =>
    have hA := hnd A (by simp)
    have hB := hnd B (by simp)
    refine ⟨fun t => ?_, fun C hC => by simp at hC⟩
    rw [lookupOr1_calc]
    simp only [List.map_cons, List.map_nil, List.prod_cons, List.prod_nil, mul_one]
    rw [tableFactor_eq_raw _ _ hA, tableFactor_eq_raw _ _ hB]
    rcases rawRelationMultiplier_cases A.damage_relations t with h | h | h | h <;>
      rcases rawRelationMultiplier_cases B.damage_relations t with h' | h' | h' | h' <;>
        rw [h, h'] <;> norm_num
  | _ :: _ :: _ :: _ => simp at hlen

/-- Instantiation of the C7 theorem on the single water table. -/
theorem calculateTypeEffectiveness_range_witness :
    lookupOr1 (calculateTypeEffectiveness [waterTypeData]) "grass" =
      rawRelationMultiplier waterTypeData.damage_relations "grass"
    ∧ lookupOr1 (calculateTypeEffectiveness [waterTypeData]) "grass" ∈
        ({0, 0.5, 1, 2} : Set ℚ) :=
  (calculateTypeEffectiveness_range [waterTypeData] (by decide) (by decide)).2
    waterTypeData rfl "grass"

/-- C8: on the concrete water and ground tables, the combined map sends
grass to 4 (2 × 2) and electric to 0 (ground's immunity overrides
water's weakness). -/
theorem calculateTypeEffectiveness_water_ground :
    lookupOr1 (calculateTypeEffectiveness [waterTypeData, groundTypeData]) "grass" = 4
    ∧ lookupOr1 (calculateTypeEffectiveness [waterTypeData, groundTypeData]) "electric" = 0 := by
  refine ⟨?_, ?_⟩ <;>
    · norm_num [calculateTypeEffectiveness, applyTable, applyDouble, applyHalf,
        applyNoDamage, lookupOr1, setKey, waterTypeData, groundTypeData,
        waterRelations, groundRelations, String.ext_iff] <;> decide

theorem mem_fromNames (dr : TypeDamageRelations) (k : String) :
    k ∈ fromNames dr ↔
      (k ∈ dr.double_damage_from.map NamedAPIResource.name ∨
        k ∈ dr.half_damage_from.map NamedAPIResource.name ∨
        k ∈ dr.no_damage_from.map NamedAPIResource.name) := by
  rw [fromNames, List.map_append, List.map_append, List.mem_append, List.mem_append]
  tauto

theorem keys_setKey (m : EffMap) (k : String) (v : ℚ) (k' : String)
    (h : k' ∈ (setKey m k v).map Prod.fst) :
    k' ∈ m.map Prod.fst ∨ k' = k := by
  induction m with
  | nil =>
    rw [setKey, List.map_cons, List.mem_cons] at h
    rcases h with h | h
    · exact Or.inr h
    · simp at h
  | cons p rest ih =>
    by_cases hp : p.1 = k
    · rw [setKey, if_pos hp, List.map_cons, List.mem_cons] at h
      rcases h with h | h
      · exact Or.inr h
      · exact Or.inl (by rw [List.map_cons, List.mem_cons]; exact Or.inr h)
    · rw [setKey, if_neg hp, List.map_cons, List.mem_cons] at h
      rcases h with h | h
      · exact Or.inl (by rw [List.map_cons, List.mem_cons]; exact Or.inl h)
      · rcases ih h with h' | h'
        · exact Or.inl (by rw [List.map_cons, List.mem_cons]; exact Or.inr h')
        · exact Or.inr h'

theorem keys_foldlSet (f : EffMap → NamedAPIResource → ℚ) :
    ∀ (rs : List NamedAPIResource) (m : EffMap) (k : String),
      k ∈ ((rs.foldl (fun m' r => setKey m' r.name (f m' r)) m).map Prod.fst) →
      k ∈ m.map Prod.fst ∨ k ∈ rs.map NamedAPIResource.name := by
  intro rs
  induction rs with
  | nil => intro m k h; exact Or.inl h
  | cons r rs ih =>
    intro m k h
    rw [List.foldl_cons] at h
    rcases ih _ k h with h' | h'
    · rcases keys_setKey _ _ _ _ h' with h'' | h''
      · exact Or.inl h''
      · exact Or.inr (by simp [h''])
    · exact Or.inr (by simp [h'])

theorem keys_applyTable (m : EffMap) (td : PokemonTypeData) (k : String)
    (h : k ∈ (applyTable m td).map Prod.fst) :
    k ∈ m.map Prod.fst ∨ k ∈ fromNames td.damage_relations := by
  have h1 := keys_foldlSet (fun _ _ => 0) td.damage_relations.no_damage_from _ k h
  rcases h1 with h1 | h1
  · have h2 := keys_foldlSet (fun m' r => lookupOr1 m' r.name * 0.5)
      td.damage_relations.half_damage_from _ k h1
    rcases h2 with h2 | h2
    · have h3 := keys_foldlSet (fun m' r => lookupOr1 m' r.name * 2)
        td.damage_relations.double_damage_from _ k h2
      rcases h3 with h3 | h3
      · exact Or.inl h3
      · exact Or.inr ((mem_fromNames _ _).mpr (Or.inl h3))
    · exact Or.inr ((mem_fromNames _ _).mpr (Or.inr (Or.inl h2)))
  · exact Or.inr ((mem_fromNames _ _).mpr (Or.inr (Or.inr h1)))

theorem keys_foldl_tables :
    ∀ (ts : List PokemonTypeData) (m : EffMap) (k : String),
      k ∈ ((ts.foldl applyTable m).map Prod.fst) →
      k ∈ m.map Prod.fst ∨ ∃ td ∈ ts, k ∈ fromNames td.damage_relations := by
  intro ts
  induction ts with
  | nil => intro m k h; exact Or.inl h
  | cons td ts ih =>
    intro m k h
    rw [List.foldl_cons] at h
    rcases ih _ k h with h' | h'
    · rcases keys_applyTable _ _ _ h' with h'' | h''
      · exact Or.inl h''
      · exact Or.inr ⟨td, by simp, h''⟩
    · obtain ⟨td', htd', hk⟩ := h'
      exact Or.inr ⟨td', by simp [htd'], hk⟩

/-- C10: every key of the returned map comes from some input table's
`double_damage_from`, `half_damage_from` or `no_damage_from` set; with no
input tables the map is empty and every attacking type keeps the
implicit neutral multiplier 1. -/
theorem calculateTypeEffectiveness_keys (ts : List PokemonTypeData) (k : String) :
    (k ∈ (calculateTypeEffectiveness ts).map Prod.fst →
      ∃ td ∈ ts, k ∈ fromNames td.damage_relations)
    ∧ calculateTypeEffectiveness ([] : List PokemonTypeData) = []
    ∧ ∀ t, lookupOr1 (calculateTypeEffectiveness []) t = 1 := by
  refine ⟨?_, rfl, fun t => rfl⟩
  intro h
  rcases keys_foldl_tables ts [] k h with h' | h'
  · simp at h'
  · exact h'

/-- Instantiation of the C10 theorem: the key "grass" of the combined
water/ground map stems from one of the tables. -/
theorem calculateTypeEffectiveness_keys_witness :
    ∃ td ∈ [waterTypeData, groundTypeData], "grass" ∈ fromNames td.damage_relations :=
  (calculateTypeEffectiveness_keys [waterTypeData, groundTypeData] "grass").1 (by decide)

/-- C9: the literal label scenarios. The level-up, plain-trade and
empty-list cases match the documented strings, but `capitalize`
uppercases only the first letter of the whole phrase, so the item labels
come out as "Thunder stone" and "Trade holding Metal coat" — not the
"Thunder Stone" / "Trade holding Metal Coat" the function's own comments
promise. -/
theorem formatEvolutionDetails_literals :
    formatEvolutionDetails [levelUp16Detail] = "Lv. 16"
    ∧ formatEvolutionDetails [thunderStoneDetail] = "Thunder stone"
    ∧ formatEvolutionDetails [tradeDetail] = "Trade"
    ∧ formatEvolutionDetails [tradeMetalCoatDetail] = "Trade holding Metal coat"
    ∧ formatEvolutionDetails [] = ""
    ∧ "Thunder stone" ≠ "Thunder Stone"
    ∧ "Trade holding Metal coat" ≠ "Trade holding Metal Coat" := by decide

end Pokedex
